import Mathlib

/-!
Verification of the form-field component layer of the repository
(`src/frontend/app/components/custom-ui/form.tsx` and its near-duplicate copy
`src/unnamed/part_001`).

Modelling conventions:
* JavaScript numbers are modelled as exact rationals (`ℚ`) together with an
  explicit `NaN` and signed infinity (`JSNum`).  Binary floating-point rounding
  and overflow of IEEE doubles are not modelled; every concrete value appearing
  in the claims is far below any magnitude where that matters.
* `Number(string)` coercion is modelled after ECMA-262 `StringToNumber`: the
  input is whitespace-trimmed, matched against the `StringNumericLiteral`
  grammar, and evaluated; a string outside the grammar coerces to `NaN`.
* `Intl.NumberFormat('nb-NO', {style: 'currency', currency: 'NOK',
  minimumFractionDigits: 2, maximumFractionDigits: 2})` is modelled after
  ECMA-402 with the CLDR data for `nb`: currency symbol `kr` before the amount,
  U+00A0 as symbol separator and group separator, `,` as decimal separator,
  U+2212 as minus sign, half-away-from-zero rounding to two fraction digits,
  and `∞` for the infinities.
-/

attribute [local semireducible] Rat.add Rat.mul Rat.inv Rat.sub Rat.ofScientific

/-! ## Model and embedded definitions -/

/-- A JavaScript number: `NaN`, a signed infinity, or a finite value
(modelled as an exact rational). -/
inductive JSNum where
  | nan : JSNum
  | inf (neg : Bool) : JSNum
  | num (q : ℚ) : JSNum
  deriving DecidableEq

/-- JS boolean coercion of a number: `NaN` and `0` are falsy. -/
def jsTruthy (v : JSNum) : Bool :=
  match v with
  | .nan => false
  | .inf _ => true
  | .num q => !(q = 0 : Bool)

/-- JS boolean coercion of a possibly-`undefined` number (`undefined` is falsy). -/
def jsTruthyOpt (v : Option JSNum) : Bool :=
  match v with
  | none => false
  | some n => jsTruthy n

/-- The decimal digit character for `d % 10`. -/
def digitChar (d : ℕ) : Char :=
  match d % 10 with
  | 0 => '0' | 1 => '1' | 2 => '2' | 3 => '3' | 4 => '4'
  | 5 => '5' | 6 => '6' | 7 => '7' | 8 => '8' | _ => '9'

/-- Numeric value of a decimal digit character. -/
def digitVal (c : Char) : ℕ := c.toNat - 48

/-- Decimal digits of `n`, least significant first, via explicit fuel
(structural recursion so that the kernel can evaluate it). -/
def revDigitsAux : ℕ → ℕ → List Char
  | 0, _ => []
  | _ + 1, 0 => []
  | fuel + 1, n + 1 => digitChar ((n + 1) % 10) :: revDigitsAux fuel ((n + 1) / 10)

/-- Decimal digits of `n`, least significant first (`[]` for `0`). -/
def revDigits (n : ℕ) : List Char := revDigitsAux n n

/-- Usual decimal rendering of a natural number, most significant digit first. -/
def natStr (n : ℕ) : List Char :=
  match n with
  | 0 => ['0']
  | _ => (revDigits n).reverse

/-- Value of a most-significant-first list of decimal digit characters. -/
def digitsToNat (ds : List Char) : ℕ :=
  ds.foldl (fun a c => 10 * a + digitVal c) 0

/-- No-break space U+00A0 (CLDR `nb` group and symbol separator; also a JS
whitespace character). -/
def nbsp : Char := ' '

/-- Minus sign U+2212 used by the CLDR `nb` locale data (distinct from the
ASCII hyphen-minus U+002D). -/
def minusSign : Char := '−'

/-- JS whitespace for the purposes of `Number()` trimming (the ASCII members of
`WhiteSpace`/`LineTerminator` together with NBSP and the BOM). -/
def isJsWs (c : Char) : Bool :=
  c = ' ' || c = '\t' || c = '\n' || c = '\r' || c = '\x0b' || c = '\x0c' ||
    c = ' ' || c = '﻿'

/-- Whitespace-trim from both ends, as `StringToNumber` does. -/
def jsTrim (l : List Char) : List Char :=
  ((l.dropWhile isJsWs).reverse.dropWhile isJsWs).reverse

/-- Radix introduced by the character after a leading `0`, if any
(`0x`/`0o`/`0b` in either case). -/
def radixOf (c : Char) : Option ℕ :=
  if c = 'x' || c = 'X' then some 16
  else if c = 'o' || c = 'O' then some 8
  else if c = 'b' || c = 'B' then some 2
  else none

/-- Digit test for the non-decimal radices. -/
def radixDigitP (r : ℕ) (c : Char) : Bool :=
  match r with
  | 16 => c.isDigit || ('a' ≤ c && c ≤ 'f') || ('A' ≤ c && c ≤ 'F')
  | 8 => '0' ≤ c && c ≤ '7'
  | 2 => c = '0' || c = '1'
  | _ => false

/-- Value of a hexadecimal digit character. -/
def hexVal (c : Char) : ℕ :=
  if c.isDigit then digitVal c
  else if 'a' ≤ c && c ≤ 'f' then c.toNat - 87
  else c.toNat - 55

/-- Value of a most-significant-first digit list in radix `r`. -/
def radixToNat (r : ℕ) (ds : List Char) : ℕ :=
  ds.foldl (fun a c => r * a + hexVal c) 0

/-- Detects a `0x`/`0o`/`0b` prefix, returning the radix and the remaining
characters. -/
def startsRadix (cs : List Char) : Option (ℕ × List Char) :=
  match cs with
  | c0 :: c1 :: rest => if c0 = '0' then (radixOf c1).map (fun r => (r, rest)) else none
  | _ => none

/-- Splits an optional leading sign off a trimmed numeric literal. -/
def splitSign (cs : List Char) : Bool × List Char :=
  match cs with
  | c :: t => if c = '-' then (true, t) else if c = '+' then (false, t) else (false, cs)
  | [] => (false, [])

/-- The characters of the literal `Infinity`. -/
def infinityChars : List Char := ['I', 'n', 'f', 'i', 'n', 'i', 't', 'y']

/-- Splits `Digits? ('.' Digits?)?` off the front of an unsigned decimal body:
integer digits, fraction digits, and the remainder (a candidate exponent part). -/
def decSplit (cs : List Char) : List Char × List Char × List Char :=
  let i := cs.takeWhile Char.isDigit
  let r1 := cs.dropWhile Char.isDigit
  match r1 with
  | '.' :: t => (i, t.takeWhile Char.isDigit, t.dropWhile Char.isDigit)
  | _ => (i, [], r1)

/-- Parses an exponent part `(e|E) sign? Digits` extending to the end of the
literal; `[]` means exponent `0`, anything else malformed is `none`. -/
def expPart (cs : List Char) : Option ℤ :=
  match cs with
  | [] => some 0
  | c :: t =>
    if c = 'e' || c = 'E' then
      let p := match t with
        | '+' :: u => (false, u)
        | '-' :: u => (true, u)
        | u => (false, u)
      if p.2 ≠ [] && p.2.all Char.isDigit then
        some (if p.1 then -(digitsToNat p.2 : ℤ) else (digitsToNat p.2 : ℤ))
      else none
    else none

/-- Mathematical value of `IntDigits . FracDigits`. -/
def decValue (i f : List Char) : ℚ :=
  (digitsToNat i : ℚ) + (digitsToNat f : ℚ) / 10 ^ f.length

/-- Power of ten with an integer exponent. -/
def rpow10 (e : ℤ) : ℚ := (10 : ℚ) ^ e

/-- Recognizer for an unsigned decimal body: `Infinity`, or
`Digits ('.' Digits?)? Exp?`, or `'.' Digits Exp?`. -/
def strDecimalBody (cs : List Char) : Bool :=
  cs = infinityChars ||
    (let p := decSplit cs
     (expPart p.2.2).isSome && !(p.1 = [] && p.2.1 = []))

/-- Recognizer for a signed decimal literal. -/
def strSignedDecimal (cs : List Char) : Bool :=
  strDecimalBody (splitSign cs).2

/-- Recognizer for the ECMA-262 `StrNumericLiteral` grammar on a trimmed
character list (the empty string is in the grammar, with value `0`). -/
def strNumericLiteral (cs : List Char) : Bool :=
  if cs = [] then true
  else
    match startsRadix cs with
    | some (r, rest) => rest ≠ [] && rest.all (radixDigitP r)
    | none => strSignedDecimal cs

/-- Mathematical value of a recognized signed decimal literal (garbage on
unrecognized input; only ever used under the grammar guard). -/
def evalSignedDec (cs : List Char) : JSNum :=
  let s := splitSign cs
  if s.2 = infinityChars then .inf s.1
  else
    let p := decSplit s.2
    let e := (expPart p.2.2).getD 0
    let q := decValue p.1 p.2.1 * rpow10 e
    .num (if s.1 then -q else q)

/-- Mathematical value of a recognized `StrNumericLiteral`. -/
def evalNumeric (cs : List Char) : JSNum :=
  if cs = [] then .num 0
  else
    match startsRadix cs with
    | some (r, rest) => .num (radixToNat r rest)
    | none => evalSignedDec cs

/-- ECMA-262 `StringToNumber` on a character list: trim, match the grammar,
evaluate; anything outside the grammar is `NaN`. -/
def jsNumberL (l : List Char) : JSNum :=
  let cs := jsTrim l
  if strNumericLiteral cs then evalNumeric cs else .nan

/-- The JS `Number(string)` coercion. -/
def jsNumber (s : String) : JSNum := jsNumberL s.toList

/-- Membership of a string (after trimming) in the `StrNumericLiteral`
grammar — "numeric" in the sense of `Number()`. -/
def isNumericString (s : String) : Bool := strNumericLiteral (jsTrim s.toList)

/-- The character substitution performed by `value.replace(/,/g, '.')`. -/
def commaToDot (c : Char) : Char := if c = ',' then '.' else c

/-- The character class kept by `.replace(/[^0-9.-]/g, '')`. -/
def keepChar (c : Char) : Bool := c.isDigit || c = '.' || c = '-'

/-- The `parseNumber` helper of `CurrencyField` in `form.tsx` (lines 238-242):
replace every comma by a period, strip everything but digits, `.` and `-`,
and map an empty result to `0`; otherwise coerce with `Number`. -/
def parseNumberL (l : List Char) : JSNum :=
  let cleaned := (l.map commaToDot).filter keepChar
  if cleaned = [] then .num 0 else jsNumberL cleaned

/-- String-level wrapper for `parseNumber`. -/
def parseNumber (s : String) : JSNum := parseNumberL s.toList

/-- The `parseCurrency` helper of `CurrencyField` in `part_001` (lines 230-233):
strip everything but digits, `.` and `-` (no comma normalization) and compute
`Number(cleaned) || 0` — any falsy coercion (`NaN`, `0`, and `Number('') = 0`)
yields `0`. -/
def parseCurrencyL (l : List Char) : JSNum :=
  let v := jsNumberL (l.filter keepChar)
  if jsTruthy v then v else .num 0

/-- String-level wrapper for `parseCurrency`. -/
def parseCurrency (s : String) : JSNum := parseCurrencyL s.toList

/-- Rounding half away from zero (ECMA-402 default `halfExpand`). -/
def roundHalfAway (x : ℚ) : ℤ :=
  if 0 ≤ x then ⌊x + 1 / 2⌋ else -⌊-x + 1 / 2⌋

/-- Inserts the `nb` group separator (NBSP) after every third digit of a
least-significant-first digit list. -/
def group3Rev : List Char → List Char
  | a :: b :: c :: d :: rest => a :: b :: c :: nbsp :: group3Rev (d :: rest)
  | l => l

/-- Decimal rendering of a natural number with `nb` thousands grouping. -/
def groupedNatStr (n : ℕ) : List Char :=
  match n with
  | 0 => ['0']
  | _ => (group3Rev (revDigits n)).reverse

/-- Two-digit decimal rendering of `c % 100` (the cents). -/
def twoDigits (c : ℕ) : List Char := [digitChar (c / 10), digitChar c]

/-- Rendering of a finite value by
`Intl.NumberFormat('nb-NO', {style: 'currency', currency: 'NOK',
minimumFractionDigits: 2, maximumFractionDigits: 2})`: optional U+2212 minus,
`kr`, NBSP, grouped integer digits, comma, exactly two fraction digits. -/
def formatFiniteNOK (q : ℚ) : List Char :=
  let cents : ℤ := roundHalfAway (q * 100)
  let n := cents.natAbs
  (if cents < 0 then [minusSign] else []) ++
    'k' :: 'r' :: nbsp :: groupedNatStr (n / 100) ++ ',' :: twoDigits (n % 100)

/-- The `formatCurrency` helper of `CurrencyField` in `form.tsx`
(lines 225-236): `NaN` and `null` yield the empty string, everything else is
handed to `Intl.NumberFormat`.  The argument is `Option JSNum` with `none`
standing for JS `null`. -/
def formatCurrency (v : Option JSNum) : String :=
  match v with
  | none => ""
  | some .nan => ""
  | some (.inf neg) => String.mk ((if neg then [minusSign] else []) ++ 'k' :: 'r' :: nbsp :: ['∞'])
  | some (.num q) => String.mk (formatFiniteNOK q)

/-- The `formatCurrency` helper of `CurrencyField` in `part_001`
(lines 221-228): no `NaN`/`null` guard, the value goes straight to
`Intl.NumberFormat` (which renders `NaN` with the currency pattern). -/
def formatCurrencyP1 (v : JSNum) : String :=
  match v with
  | .nan => String.mk ('k' :: 'r' :: nbsp :: ['N', 'a', 'N'])
  | .inf neg => String.mk ((if neg then [minusSign] else []) ++ 'k' :: 'r' :: nbsp :: ['∞'])
  | .num q => String.mk (formatFiniteNOK q)

/-- Count of the fraction digits displayed by a formatted string: the run of
decimal digits immediately after the last decimal comma (0 if no comma). -/
def fracDigitCount (l : List Char) : ℕ :=
  if ',' ∈ l then ((l.reverse.takeWhile (fun c => !(c = ',' : Bool))).reverse.takeWhile Char.isDigit).length
  else 0

/-- String-level wrapper for `fracDigitCount`. -/
def fracDigitCountStr (s : String) : ℕ := fracDigitCount s.toList

/-- Largest `k` with `p ^ k ∣ n` (0 for `n = 0`), via explicit fuel. -/
def maxPowDvdAux : ℕ → ℕ → ℕ → ℕ
  | 0, _, _ => 0
  | fuel + 1, p, n =>
    if 2 ≤ p && n ≠ 0 && n % p = 0 then 1 + maxPowDvdAux fuel p (n / p) else 0

/-- Largest `k` with `p ^ k ∣ n` for `n ≥ 1` and `p ≥ 2`. -/
def maxPowDvd (p n : ℕ) : ℕ := maxPowDvdAux n p n

/-- Left-pads a digit list with zeros to length `k`. -/
def padZeroLeft (k : ℕ) (ds : List Char) : List Char :=
  List.replicate (k - ds.length) '0' ++ ds

/-- The JS `Number.prototype.toString` (base 10) on the model: plain decimal
notation with an ASCII minus.  Exponential notation for extreme magnitudes and
double-precision artifacts are not modelled; every value reaching this
function in the component comes from decimal input, whose denominator divides
a power of ten. -/
def jsNumToString (v : JSNum) : String :=
  match v with
  | .nan => "NaN"
  | .inf true => "-Infinity"
  | .inf false => "Infinity"
  | .num q =>
    let a := |q|
    let k := max (maxPowDvd 2 a.den) (maxPowDvd 5 a.den)
    let scaled := (a * 10 ^ k).num.natAbs
    let ip := natStr (scaled / 10 ^ k)
    let chars :=
      (if q < 0 then ['-'] else []) ++ ip ++
        (if k = 0 then [] else '.' :: padZeroLeft k (natStr (scaled % 10 ^ k)))
    String.mk chars

/-- The state a mounted `CurrencyField` (form.tsx copy) carries: the canonical
field value (`none` = absent), the `displayValue` string state, and whether the
input has focus. -/
structure CurrencyMachine where
  canonical : Option JSNum
  display : String
  focused : Bool
  deriving DecidableEq

/-- Events the form.tsx `CurrencyField` reacts to: `focus` (`handleFocus`),
`input s` (`handleChange` with raw text `s`), `blur` (`handleBlur`), and
`externalSync` (the `useEffect` re-synchronising the display from the
canonical value when the input is not focused). -/
inductive CurrencyEvent where
  | focus : CurrencyEvent
  | input (s : String) : CurrencyEvent
  | blur : CurrencyEvent
  | externalSync : CurrencyEvent

/-- Transition function of the form.tsx `CurrencyField`, read off lines
244-273: `handleFocus` shows `(value ?? 0).toString()`; `handleChange` stores
the raw text and writes `parseNumber(raw)` to the field; `handleBlur` shows
`formatCurrency(value ?? 0)`; the `useEffect` (guarded by
`document.activeElement !== inputRef.current`) shows
`value ? formatCurrency(value) : ''`. -/
def currencyStep (m : CurrencyMachine) : CurrencyEvent → CurrencyMachine
  | .focus =>
    { m with display := jsNumToString (m.canonical.getD (.num 0)), focused := true }
  | .input s => { m with canonical := some (parseNumber s), display := s }
  | .blur =>
    { m with display := formatCurrency (some (m.canonical.getD (.num 0))), focused := false }
  | .externalSync =>
    if m.focused then m
    else { m with display := if jsTruthyOpt m.canonical then formatCurrency m.canonical else "" }

/-- Evaluation of the `useState` lazy initializer
`() => field.state.value ? formatCurrency(field.state.value) : ''` (form.tsx
lines 220-222) in an environment where the `formatCurrency` `const` may not be
initialized yet.  Only the truthy branch references `formatCurrency`. -/
def useStateInitTSX (formatCurrencyRef : Option (Option JSNum → String))
    (v : Option JSNum) : Except String String :=
  if jsTruthyOpt v then
    match formatCurrencyRef with
    | some f => .ok (f v)
    | none => .error "ReferenceError: Cannot access formatCurrency before initialization"
  else .ok ""

/-- Mounting the form.tsx `CurrencyField`.  The `useState` call at lines
220-222 runs its lazy initializer immediately, but the `const formatCurrency`
binding it closes over is declared only at line 225, so at that moment the
binding is still in its temporal dead zone (`none`): a truthy initial value
makes the initializer throw, a falsy one yields display `''`. -/
def currencyFieldMountTSX (v : Option JSNum) : Except String CurrencyMachine :=
  (useStateInitTSX none v).map (fun d => ⟨v, d, false⟩)

/-- The `CurrencyField` of `part_001` (lines 235-246) keeps no display state:
the rendered input value is always `value ? formatCurrency(value) : ''`. -/
def currencyDisplayP1 (v : Option JSNum) : String :=
  if jsTruthyOpt v then formatCurrencyP1 (v.getD (.num 0)) else ""

/-- JS nullish coalescing `a ?? b` on option-modelled values. -/
def jsNullish (a b : Option Bool) : Option Bool :=
  match a with
  | none => b
  | some x => some x

/-- The `disabled` prop computed by `SubmitButton` in `form.tsx` (line 371):
`isSubmitting ?? isPristine ?? isValidating ?? loading`.  The three form
flags are booleans (never nullish); `loading` is an optional prop.  The
resulting attribute is coerced to a boolean by the DOM (`undefined` ↦ not
disabled). -/
def submitDisabled (isSubmitting isPristine isValidating : Bool)
    (loading : Option Bool) : Bool :=
  (jsNullish (some isSubmitting)
    (jsNullish (some isPristine) (jsNullish (some isValidating) loading))).getD false

/-- Whether `SubmitButton` in `form.tsx` (line 374) renders the spinner instead
of its children: `isSubmitting || isValidating || loading`. -/
def submitSpinner (isSubmitting isPristine isValidating : Bool)
    (loading : Option Bool) : Bool :=
  isSubmitting || isValidating || loading.getD false

/-- The `disabled` computation of `SubmitButton` in `part_001` (line 273),
textually identical to the form.tsx copy. -/
def submitDisabledP1 (isSubmitting isPristine isValidating : Bool)
    (loading : Option Bool) : Bool :=
  (jsNullish (some isSubmitting)
    (jsNullish (some isPristine) (jsNullish (some isValidating) loading))).getD false

/-- The spinner condition of `SubmitButton` in `part_001` (line 276),
textually identical to the form.tsx copy. -/
def submitSpinnerP1 (isSubmitting isPristine isValidating : Bool)
    (loading : Option Bool) : Bool :=
  isSubmitting || isValidating || loading.getD false

/-- A longitude/latitude pair (`Location` in the source). -/
structure Location where
  longitude : ℚ
  latitude : ℚ
  deriving DecidableEq

/-- The source's `DEFAULT_COORDINATES` fallback. -/
def DEFAULT_COORDINATES : Location := ⟨0, 0⟩

/-- The `initialViewState` handed to `BaseMap` on mount. -/
structure MapViewState where
  zoom : ℚ
  longitude : ℚ
  latitude : ℚ
  deriving DecidableEq

/-- The state of a mounted `MapField`: the bound field value and the map view.
`BaseMap` receives only `initialViewState`, so the view is owned by the map
after mount; no handler in `MapField` ever writes to it. -/
structure MapFieldState where
  fieldValue : Option Location
  view : MapViewState
  deriving DecidableEq

/-- Default-zoom resolution of the form.tsx copy (`zoom = 4`, line 163). -/
def mapFieldZoom (zoom : Option ℚ) : ℚ := zoom.getD 4

/-- Default-zoom resolution of the `part_001` copy (`zoom = 1`, line 163). -/
def mapFieldZoomP1 (zoom : Option ℚ) : ℚ := zoom.getD 1

/-- Mounting the form.tsx `MapField`: the view is initialized once from the
caller-supplied `zoom`/`coordinates` props (with their defaults). -/
def mapFieldMount (zoom : Option ℚ) (coordinates : Option Location)
    (initialValue : Option Location) : MapFieldState :=
  { fieldValue := initialValue,
    view := { zoom := mapFieldZoom zoom,
              longitude := (coordinates.getD DEFAULT_COORDINATES).longitude,
              latitude := (coordinates.getD DEFAULT_COORDINATES).latitude } }

/-- The `onMarkerDrag` callback (lines 168-176): writes
`{longitude: event.lngLat.lng, latitude: event.lngLat.lat}` to the field in a
single `handleChange`; nothing else changes. -/
def onMarkerDrag (s : MapFieldState) (lng lat : ℚ) : MapFieldState :=
  { s with fieldValue := some ⟨lng, lat⟩ }

/-- The `onMarkerDrag` callback of the `part_001` copy, textually identical. -/
def onMarkerDragP1 (s : MapFieldState) (lng lat : ℚ) : MapFieldState :=
  { s with fieldValue := some ⟨lng, lat⟩ }

/-- An external write to the bound field value (e.g. a form reset); `MapField`
renders the marker from it but hands the map only `initialViewState`. -/
def mapFieldSetValue (s : MapFieldState) (v : Location) : MapFieldState :=
  { s with fieldValue := some v }

/-- Marker position (lines 189-190):
`field.state.value?.longitude ?? coordinates.longitude` and likewise for the
latitude. -/
def markerPosition (s : MapFieldState) (coordinates : Option Location) : Location :=
  s.fieldValue.getD (coordinates.getD DEFAULT_COORDINATES)

/-- A validation error object as the form engine hands it over (duck-typed
`{message: string}` in the source). -/
structure FieldError where
  message : String
  deriving DecidableEq

/-- The error-message content `BaseField` renders (lines 68-69):
`{errors.length > 0 && errors[0].message}` — JSX renders nothing for the
`false` branch, so the content is the first error's message or nothing. -/
def baseFieldMessageContent (errors : List FieldError) : Option String :=
  if errors.length > 0 then some ((errors.headD ⟨""⟩).message) else none

/-- The error-message content of `BaseField` in `part_001`, textually
identical. -/
def baseFieldMessageContentP1 (errors : List FieldError) : Option String :=
  if errors.length > 0 then some ((errors.headD ⟨""⟩).message) else none

/-- The `onChange` handler of `NumberField` (line 113): the raw input string
is coerced with `Number(...)` and written to the binding unconditionally —
there is no validation, `NaN` is written like any other value.  The previous
field value is irrelevant. -/
def numberFieldOnChange (_old : JSNum) (s : String) : JSNum := jsNumber s

/-- The `onChange` handler of `NumberField` in `part_001`, textually
identical. -/
def numberFieldOnChangeP1 (_old : JSNum) (s : String) : JSNum := jsNumber s

/-- Whether the form.tsx `SelectField` renders its adjacent clear button
(line 332): `!required && field.state.value` — string truthiness, so only for
a non-empty current value. -/
def selectShowsClearControl (required : Bool) (value : String) : Bool :=
  !required && !(value = "" : Bool)

/-- The value the form.tsx clear button writes on click (line 337). -/
def selectClearValue : String := ""

/-- Whether the `part_001` `SelectField` offers its explicit `None` item
(line 320): `!required`, independent of the current value. -/
def selectOffersNoneItemP1 (required : Bool) : Bool := !required

/-- The value attached to the `part_001` `None` item (line 320). -/
def selectNoneItemValueP1 : String := ""

/-- Characters that are relevant to the form.tsx parser: kept by the strip, or
a comma (which the normalization turns into a kept period). -/
def keptOrComma (c : Char) : Bool := keepChar c || c = ','

/-! ## Helper lemmas -/

theorem digitChar_isDigit (d : ℕ) : (digitChar d).isDigit = true := by
  unfold digitChar
  have h : d % 10 < 10 := Nat.mod_lt _ (by omega)
  set m := d % 10 with hm
  interval_cases m <;> rfl

theorem digitVal_digitChar (d : ℕ) : digitVal (digitChar d) = d % 10 := by
  unfold digitChar
  have h : d % 10 < 10 := Nat.mod_lt _ (by omega)
  set m := d % 10 with hm
  interval_cases m <;> rfl

theorem revDigitsAux_all_digits (fuel n : ℕ) :
    ∀ c ∈ revDigitsAux fuel n, c.isDigit = true := by
  induction fuel generalizing n with
  | zero => intro c hc; simp [revDigitsAux] at hc
  | succ fuel ih =>
    intro c hc
    cases n with
    | zero => simp [revDigitsAux] at hc
    | succ m =>
      simp only [revDigitsAux, List.mem_cons] at hc
      rcases hc with h | h
      · exact h ▸ digitChar_isDigit _
      · exact ih _ c h

theorem natStr_all_digits (n : ℕ) : ∀ c ∈ natStr n, c.isDigit = true := by
  intro c hc
  cases n with
  | zero => simp [natStr] at hc; simp [hc]
  | succ m =>
    simp only [natStr, List.mem_reverse] at hc
    exact revDigitsAux_all_digits _ _ c hc

theorem natStr_ne_nil (n : ℕ) : natStr n ≠ [] := by
  cases n with
  | zero => simp [natStr]
  | succ m => simp [natStr, revDigits, revDigitsAux]

theorem digitsToNat_revDigitsAux (fuel : ℕ) :
    ∀ n, n ≤ fuel → ∀ a : ℕ,
      (revDigitsAux fuel n).reverse.foldl (fun a c => 10 * a + digitVal c) a =
        a * 10 ^ (revDigitsAux fuel n).length + n := by
  induction fuel with
  | zero => intro n hn a; interval_cases n; simp [revDigitsAux]
  | succ fuel ih =>
    intro n hn a
    cases n with
    | zero => simp [revDigitsAux]
    | succ m =>
      have hle : (m + 1) / 10 ≤ fuel := by
        have := Nat.div_le_self (m + 1) 10
        have h2 : (m + 1) / 10 < m + 1 := Nat.div_lt_self (Nat.succ_pos m) (by omega)
        omega
      simp only [revDigitsAux, List.reverse_cons, List.foldl_append, List.foldl_cons,
        List.foldl_nil, List.length_cons]
      rw [ih _ hle a]
      rw [digitVal_digitChar]
      have hdm : 10 * ((m + 1) / 10) + (m + 1) % 10 = m + 1 := Nat.div_add_mod _ _
      ring_nf
      omega

theorem digitsToNat_natStr (n : ℕ) : digitsToNat (natStr n) = n := by
  cases n with
  | zero => rfl
  | succ m =>
    unfold digitsToNat natStr
    simp only []
    have := digitsToNat_revDigitsAux (m + 1) (m + 1) le_rfl 0
    simpa [revDigits] using this

theorem takeWhile_eq_self_of_all {p : Char → Bool} :
    ∀ {l : List Char}, (∀ x ∈ l, p x = true) → l.takeWhile p = l
  | [], _ => rfl
  | a :: t, h => by
    have ha := h a (List.mem_cons_self a t)
    simp only [List.takeWhile_cons, ha, if_true]
    exact congrArg (a :: ·) (takeWhile_eq_self_of_all fun x hx => h x (List.mem_cons_of_mem a hx))

theorem takeWhile_append_of_all {p : Char → Bool} {y : Char} {r : List Char} :
    ∀ {l : List Char}, (∀ x ∈ l, p x = true) → p y = false →
      (l ++ y :: r).takeWhile p = l
  | [], _, hy => by simp [List.takeWhile_cons, hy]
  | a :: t, h, hy => by
    have ha := h a (List.mem_cons_self a t)
    simp only [List.cons_append, List.takeWhile_cons, ha, if_true]
    exact congrArg (a :: ·)
      (takeWhile_append_of_all (fun x hx => h x (List.mem_cons_of_mem a hx)) hy)

theorem dropWhile_append_of_all {p : Char → Bool} {y : Char} {r : List Char} :
    ∀ {l : List Char}, (∀ x ∈ l, p x = true) → p y = false →
      (l ++ y :: r).dropWhile p = y :: r
  | [], _, hy => by simp [List.dropWhile_cons, hy]
  | a :: t, h, hy => by
    have ha := h a (List.mem_cons_self a t)
    simp only [List.cons_append, List.dropWhile_cons, ha, if_true]
    exact dropWhile_append_of_all (fun x hx => h x (List.mem_cons_of_mem a hx)) hy

theorem dropWhile_eq_self_of_all_neg {p : Char → Bool} {l : List Char}
    (h : ∀ x ∈ l, p x = false) : l.dropWhile p = l := by
  cases l with
  | nil => rfl
  | cons a t => simp [List.dropWhile_cons, h a (List.mem_cons_self a t)]

theorem filter_eq_self_of_all {p : Char → Bool} {l : List Char}
    (h : ∀ x ∈ l, p x = true) : l.filter p = l :=
  List.filter_eq_self.mpr h

theorem jsTrim_eq_self {l : List Char} (h : ∀ x ∈ l, isJsWs x = false) :
    jsTrim l = l := by
  unfold jsTrim
  rw [dropWhile_eq_self_of_all_neg h]
  rw [dropWhile_eq_self_of_all_neg (fun x hx => h x (List.mem_reverse.mp hx))]
  exact List.reverse_reverse l

theorem mem_group3Rev {c : Char} :
    ∀ {l : List Char}, c ∈ group3Rev l → c = nbsp ∨ c ∈ l
  | [], h => Or.inr (by simpa [group3Rev] using h)
  | [a], h => Or.inr (by simpa [group3Rev] using h)
  | [a, b], h => Or.inr (by simpa [group3Rev] using h)
  | [a, b, d], h => Or.inr (by simpa [group3Rev] using h)
  | a :: b :: d :: e :: rest, h => by
    simp only [group3Rev, List.mem_cons] at h
    rcases h with h | h | h | h | h
    · exact Or.inr (by simp [h])
    · exact Or.inr (by simp [h])
    · exact Or.inr (by simp [h])
    · exact Or.inl h
    · rcases mem_group3Rev h with h' | h'
      · exact Or.inl h'
      · exact Or.inr (by simp only [List.mem_cons] at h' ⊢; tauto)

theorem filter_group3Rev {p : Char → Bool} (hn : p nbsp = false) :
    ∀ l : List Char, (group3Rev l).filter p = l.filter p
  | [] => rfl
  | [a] => rfl
  | [a, b] => rfl
  | [a, b, d] => rfl
  | a :: b :: d :: e :: rest => by
    simp [group3Rev, List.filter_cons, hn, filter_group3Rev hn (e :: rest)]

theorem map_commaToDot_eq_self {l : List Char} (h : ∀ x ∈ l, x ≠ ',') :
    l.map commaToDot = l := by
  induction l with
  | nil => rfl
  | cons a t ih =>
    simp only [List.map_cons]
    rw [show commaToDot a = a from if_neg (h a (List.mem_cons_self a t)),
      ih fun x hx => h x (List.mem_cons_of_mem a hx)]

theorem radixOf_eq_none_of_isDigit {c : Char} (h : c.isDigit = true) :
    radixOf c = none := by
  unfold radixOf
  split_ifs with h1 h2 h3
  · simp only [Bool.or_eq_true, decide_eq_true_eq] at h1
    rcases h1 with h' | h' <;> (subst h'; exact absurd h (by decide))
  · simp only [Bool.or_eq_true, decide_eq_true_eq] at h2
    rcases h2 with h' | h' <;> (subst h'; exact absurd h (by decide))
  · simp only [Bool.or_eq_true, decide_eq_true_eq] at h3
    rcases h3 with h' | h' <;> (subst h'; exact absurd h (by decide))
  · rfl

theorem splitSign_of_digit {d : Char} (t : List Char) (hd : d.isDigit = true) :
    splitSign (d :: t) = (false, d :: t) := by
  simp only [splitSign]
  rw [if_neg, if_neg]
  · intro h; subst h; exact absurd hd (by decide)
  · intro h; subst h; exact absurd hd (by decide)

theorem isJsWs_eq_false_of_isDigit {c : Char} (h : c.isDigit = true) :
    isJsWs c = false := by
  by_contra hb
  rw [Bool.not_eq_false] at hb
  simp only [isJsWs, Bool.or_eq_true, decide_eq_true_eq] at hb
  rcases hb with (((((((h' | h') | h') | h') | h') | h') | h') | h') <;>
    (subst h'; exact absurd h (by decide))

theorem keepChar_of_isDigit {c : Char} (h : c.isDigit = true) :
    keepChar c = true := by
  unfold keepChar; rw [h]; rfl

theorem commaToDot_of_isDigit {c : Char} (h : c.isDigit = true) :
    commaToDot c = c := by
  unfold commaToDot
  rw [if_neg]
  intro h'; subst h'; exact absurd h (by decide)

theorem startsRadix_digitsDot {i : List Char} (f : List Char)
    (hi : i ≠ []) (hdi : ∀ c ∈ i, c.isDigit = true) :
    startsRadix (i ++ '.' :: f) = none := by
  match i, hi with
  | [d], _ =>
    have hd := hdi d (by simp)
    simp only [List.cons_append, List.nil_append, startsRadix]
    split_ifs with h
    · rw [show radixOf '.' = none from rfl]; rfl
    · rfl
  | d1 :: d2 :: t, _ =>
    have hd2 := hdi d2 (by simp)
    simp only [List.cons_append, startsRadix]
    split_ifs with h
    · rw [radixOf_eq_none_of_isDigit hd2]; rfl
    · rfl

theorem decSplit_digitsDot {i f : List Char}
    (hdi : ∀ c ∈ i, c.isDigit = true) (hdf : ∀ c ∈ f, c.isDigit = true) :
    decSplit (i ++ '.' :: f) = (i, f, []) := by
  unfold decSplit
  rw [takeWhile_append_of_all hdi (by decide), dropWhile_append_of_all hdi (by decide)]
  simp only []
  rw [takeWhile_eq_self_of_all hdf, List.dropWhile_eq_nil_iff.mpr fun x hx => hdf x hx]

theorem jsNumberL_digitsDot {i f : List Char}
    (hi : i ≠ []) (hdi : ∀ c ∈ i, c.isDigit = true) (hdf : ∀ c ∈ f, c.isDigit = true) :
    jsNumberL (i ++ '.' :: f) = .num (decValue i f) := by
  obtain ⟨d, t, rfl⟩ : ∃ d t, i = d :: t := by
    cases i with
    | nil => exact absurd rfl hi
    | cons d t => exact ⟨d, t, rfl⟩
  have hd : d.isDigit = true := hdi d (by simp)
  have hws : ∀ x ∈ (d :: t) ++ '.' :: f, isJsWs x = false := by
    intro x hx
    rcases List.mem_append.mp hx with hx | hx
    · exact isJsWs_eq_false_of_isDigit (hdi x hx)
    · rcases List.mem_cons.mp hx with hx | hx
      · subst hx; rfl
      · exact isJsWs_eq_false_of_isDigit (hdf x hx)
  have hsplit : splitSign ((d :: t) ++ '.' :: f) = (false, (d :: t) ++ '.' :: f) := by
    rw [List.cons_append]; exact splitSign_of_digit _ hd
  have hninf : ¬((d :: t) ++ '.' :: f = infinityChars) := by
    rw [List.cons_append]
    intro h
    have hdI : d = 'I' := by
      have := congrArg (fun l => l.headD ' ') h
      simpa [infinityChars] using this
    subst hdI; exact absurd hd (by decide)
  have hsr := startsRadix_digitsDot f hi hdi
  have hds := decSplit_digitsDot hdi hdf
  unfold jsNumberL
  rw [jsTrim_eq_self hws]
  have hlit : strNumericLiteral ((d :: t) ++ '.' :: f) = true := by
    unfold strNumericLiteral
    rw [if_neg (by simp)]
    rw [hsr]
    unfold strSignedDecimal
    rw [hsplit]
    unfold strDecimalBody
    rw [hds]
    simp [expPart, hi]
  rw [if_pos hlit]
  unfold evalNumeric
  rw [if_neg (by simp), hsr]
  unfold evalSignedDec
  rw [hsplit]
  simp only []
  rw [if_neg hninf, hds]
  simp only [expPart, Option.getD_some]
  rw [show rpow10 0 = 1 from rfl, mul_one]
  simp

theorem twoDigits_all_digits (c : ℕ) : ∀ x ∈ twoDigits c, x.isDigit = true := by
  intro x hx
  rcases List.mem_cons.mp hx with h | h
  · exact h ▸ digitChar_isDigit _
  · rcases List.mem_cons.mp h with h' | h'
    · exact h' ▸ digitChar_isDigit _
    · simp at h'

theorem digitsToNat_twoDigits {c : ℕ} (h : c < 100) :
    digitsToNat (twoDigits c) = c := by
  unfold digitsToNat twoDigits
  simp only [List.foldl_cons, List.foldl_nil, digitVal_digitChar]
  omega

theorem clean_groupedNatStr (m : ℕ) :
    ((groupedNatStr m).map commaToDot).filter keepChar = natStr m := by
  cases m with
  | zero => rfl
  | succ k =>
    have hmem : ∀ c ∈ group3Rev (revDigits (k + 1)), c.isDigit = true ∨ c = nbsp := by
      intro c hc
      rcases mem_group3Rev hc with h | h
      · exact Or.inr h
      · exact Or.inl (revDigitsAux_all_digits _ _ c h)
    have hnc : ∀ c ∈ (group3Rev (revDigits (k + 1))).reverse, c ≠ ',' := by
      intro c hc
      rcases hmem c (List.mem_reverse.mp hc) with h | h
      · intro h'; subst h'; exact absurd h (by decide)
      · intro h'; subst h'; exact absurd h (by decide)
    show ((group3Rev (revDigits (k + 1))).reverse.map commaToDot).filter keepChar =
      (revDigits (k + 1)).reverse
    rw [map_commaToDot_eq_self hnc]
    rw [List.filter_reverse]
    rw [filter_group3Rev (by decide)]
    exact congrArg List.reverse
      (@filter_eq_self_of_all keepChar _ fun x hx =>
        keepChar_of_isDigit (revDigitsAux_all_digits _ _ x hx))

theorem cleaned_formatFiniteNOK (q : ℚ) :
    ((formatFiniteNOK q).map commaToDot).filter keepChar =
      natStr ((roundHalfAway (q * 100)).natAbs / 100) ++
        '.' :: twoDigits ((roundHalfAway (q * 100)).natAbs % 100) := by
  unfold formatFiniteNOK
  simp only []
  rw [List.map_append, List.filter_append, List.map_append, List.filter_append]
  have hsign :
      (((if roundHalfAway (q * 100) < 0 then [minusSign] else []).map commaToDot).filter
        keepChar) = [] := by
    split_ifs <;> rfl
  rw [hsign, List.nil_append]
  simp only [List.map_cons, List.filter_cons]
  rw [show commaToDot 'k' = 'k' from rfl, show commaToDot 'r' = 'r' from rfl,
    show commaToDot nbsp = nbsp from rfl]
  rw [show keepChar 'k' = false from rfl, show keepChar 'r' = false from rfl,
    show keepChar nbsp = false from rfl]
  simp only [Bool.false_eq_true, if_false]
  rw [clean_groupedNatStr]
  rw [show commaToDot ',' = '.' from rfl, show keepChar '.' = true from rfl]
  simp only [if_true]
  have h2d : (List.map commaToDot
      (twoDigits ((roundHalfAway (q * 100)).natAbs % 100))).filter keepChar =
      twoDigits ((roundHalfAway (q * 100)).natAbs % 100) := by
    rw [@map_commaToDot_eq_self (twoDigits _) fun x hx => by
      intro h'; subst h'
      exact absurd (twoDigits_all_digits _ _ hx) (by decide)]
    exact @filter_eq_self_of_all keepChar _ fun x hx =>
      keepChar_of_isDigit (twoDigits_all_digits _ x hx)
  rw [h2d]

theorem roundHalfAway_nonneg {x : ℚ} (hx : 0 ≤ x) : 0 ≤ roundHalfAway x := by
  unfold roundHalfAway
  rw [if_pos hx]
  exact Int.le_floor.mpr (by push_cast; linarith)

/-- Round trip through the nb-NO currency formatter for non-negative finite
values: re-parsing the formatted string recovers the value rounded to cents. -/
theorem parseNumber_format_nonneg (q : ℚ) (hq : 0 ≤ q) :
    parseNumber (formatCurrency (some (.num q))) =
      .num ((roundHalfAway (q * 100) : ℚ) / 100) := by
  have hc : 0 ≤ roundHalfAway (q * 100) := roundHalfAway_nonneg (by positivity)
  show parseNumberL (formatFiniteNOK q) = _
  unfold parseNumberL
  rw [cleaned_formatFiniteNOK]
  set n := (roundHalfAway (q * 100)).natAbs with hn
  rw [if_neg (by
    intro h
    exact natStr_ne_nil (n / 100) (List.append_eq_nil.mp h).1)]
  rw [jsNumberL_digitsDot (natStr_ne_nil _) (natStr_all_digits _) (twoDigits_all_digits _)]
  unfold decValue
  rw [digitsToNat_natStr, digitsToNat_twoDigits (Nat.mod_lt _ (by omega))]
  rw [show (twoDigits (n % 100)).length = 2 from rfl]
  have habn : 100 * (n / 100) + n % 100 = n := Nat.div_add_mod n 100
  have hcast : ((n : ℕ) : ℚ) = ((roundHalfAway (q * 100) : ℤ) : ℚ) := by
    rw [hn, Int.cast_natAbs]
    exact congrArg (fun z : ℤ => (z : ℚ)) (abs_of_nonneg hc)
  have hq100 : ((roundHalfAway (q * 100) : ℤ) : ℚ) =
      100 * ((n / 100 : ℕ) : ℚ) + ((n % 100 : ℕ) : ℚ) := by
    rw [← hcast]
    exact_mod_cast habn.symm
  congr 1
  rw [hq100]
  ring

theorem fracDigitCount_append_comma {a b : List Char} (hb : ',' ∉ b) :
    fracDigitCount (a ++ ',' :: b) = (b.takeWhile Char.isDigit).length := by
  unfold fracDigitCount
  rw [if_pos (by simp)]
  rw [List.reverse_append, List.reverse_cons, List.append_assoc, List.singleton_append]
  rw [takeWhile_append_of_all (p := fun c => !(c = ',' : Bool))
    (fun x hx => by
      have hx' : x ∈ b := List.mem_reverse.mp hx
      have : ¬(x = ',') := fun h => hb (h ▸ hx')
      simp [this])
    (by simp)]
  rw [List.reverse_reverse]

theorem fracDigitCount_formatFiniteNOK (q : ℚ) :
    fracDigitCount (formatFiniteNOK q) = 2 := by
  unfold formatFiniteNOK
  simp only []
  rw [fracDigitCount_append_comma (by
    intro h
    exact absurd (twoDigits_all_digits _ _ h) (by decide))]
  rw [@takeWhile_eq_self_of_all Char.isDigit _ (twoDigits_all_digits _)]
  rfl

theorem evalSignedDec_ne_nan (cs : List Char) : evalSignedDec cs ≠ .nan := by
  by_cases h : (splitSign cs).2 = infinityChars <;> simp [evalSignedDec, h]

theorem evalNumeric_ne_nan (cs : List Char) : evalNumeric cs ≠ .nan := by
  unfold evalNumeric
  split_ifs with h
  · simp
  · split
    · simp
    · exact evalSignedDec_ne_nan cs

theorem jsNumberL_eq_nan_iff (l : List Char) :
    jsNumberL l = .nan ↔ strNumericLiteral (jsTrim l) = false := by
  unfold jsNumberL
  by_cases h : strNumericLiteral (jsTrim l) = true
  · rw [if_pos h, h]
    simp [evalNumeric_ne_nan (jsTrim l)]
  · rw [Bool.not_eq_true] at h
    rw [if_neg (fun hh => Bool.false_ne_true (h.symm.trans hh)), h]
    simp

theorem commaToDot_idem (c : Char) : commaToDot (commaToDot c) = commaToDot c := by
  by_cases h : c = ','
  · subst h; rfl
  · unfold commaToDot; rw [if_neg h, if_neg h]

theorem parseNumberL_map_commaToDot (l : List Char) :
    parseNumberL (l.map commaToDot) = parseNumberL l := by
  have hm : (l.map commaToDot).map commaToDot = l.map commaToDot := by
    rw [List.map_map]
    exact congrArg (fun f => List.map f l) (funext commaToDot_idem)
  unfold parseNumberL
  rw [hm]

theorem keepChar_commaToDot (a : Char) : keepChar (commaToDot a) = keptOrComma a := by
  by_cases h : a = ','
  · subst h; rfl
  · unfold commaToDot keptOrComma
    rw [if_neg h, decide_eq_false h]
    simp

theorem filter_clean_keptOrComma (l : List Char) :
    ((l.filter keptOrComma).map commaToDot).filter keepChar =
      (l.map commaToDot).filter keepChar := by
  induction l with
  | nil => rfl
  | cons a t ih =>
    by_cases h : keptOrComma a = true
    · simp only [List.filter_cons, h, if_true, List.map_cons, keepChar_commaToDot]
      rw [ih]
    · rw [Bool.not_eq_true] at h
      simp only [List.filter_cons, h, Bool.false_eq_true, if_false, List.map_cons,
        keepChar_commaToDot]
      exact ih

theorem parseNumberL_filter_keptOrComma (l : List Char) :
    parseNumberL (l.filter keptOrComma) = parseNumberL l := by
  unfold parseNumberL
  rw [filter_clean_keptOrComma]

/-- C1: the claim says `SubmitButton` is disabled and shows the spinner exactly
when `isSubmitting ∨ isValidating ∨ loading`.  The code disagrees: at
`isSubmitting = false, isPristine = false, isValidating = true,
loading = false` the spinner shows but the button is NOT disabled, because the
`??` chain short-circuits at its first operand, the always-boolean
`isSubmitting` — so `disabled` is just `isSubmitting`. -/
theorem C1_submitButton_disabled_mismatch :
    submitSpinner false false true (some false) = true ∧
    submitDisabled false false true (some false) = false ∧
    (∀ a b c l, submitDisabled a b c l = a) := by
  refine ⟨rfl, rfl, fun a b c l => rfl⟩

/-- C2 counterexample: `parse("1,234.56")` does not yield `1234.56`; the comma
substitution produces `"1.234.56"`, which `Number()` rejects, so the result is
`NaN`. -/
theorem C2_parseNumber_thousands_comma_nan :
    parseNumber "1,234.56" = JSNum.nan ∧
    parseNumber "1,234.56" ≠ JSNum.num (1234.56 : ℚ) := by
  exact ⟨by decide, by decide⟩

/-- C2 (amended): the parser replaces every comma with a period (so a comma
behaves exactly like a decimal point), strips every character except digits,
`.` and `-`, and maps the empty cleaned result to 0; `parse("1234.56")` and
`parse("")` behave as claimed, but `parse("1,234.56")` yields `NaN` because the
comma substitution leaves two decimal points. -/
theorem C2_parseNumber_spec :
    (∀ l : List Char, parseNumberL (l.map commaToDot) = parseNumberL l) ∧
    (∀ l : List Char, parseNumberL (l.filter keptOrComma) = parseNumberL l) ∧
    parseNumber "1,5" = JSNum.num (1.5 : ℚ) ∧
    parseNumber "1234.56" = JSNum.num (1234.56 : ℚ) ∧
    parseNumber "" = JSNum.num 0 ∧
    parseNumber "abc" = JSNum.num 0 ∧
    parseNumber "1,234.56" = JSNum.nan := by
  exact ⟨parseNumberL_map_commaToDot, parseNumberL_filter_keptOrComma,
    by decide, by decide, by decide, by decide, by decide⟩

/-- C3: in the form.tsx copy the `useState` lazy initializer closes over the
`formatCurrency` `const` declared below it; mounting with a truthy (non-zero,
non-`NaN`) initial value evaluates that reference inside the temporal dead zone
and throws, while a falsy initial value (absent, 0, `NaN`) takes the `''`
branch and renders. -/
theorem C3_currencyField_mount_tdz :
    (∀ q : ℚ, q ≠ 0 → currencyFieldMountTSX (some (.num q)) =
      .error "ReferenceError: Cannot access formatCurrency before initialization") ∧
    (∀ b : Bool, currencyFieldMountTSX (some (.inf b)) =
      .error "ReferenceError: Cannot access formatCurrency before initialization") ∧
    currencyFieldMountTSX (some (.num 0)) = .ok ⟨some (.num 0), "", false⟩ ∧
    currencyFieldMountTSX (some .nan) = .ok ⟨some .nan, "", false⟩ ∧
    currencyFieldMountTSX none = .ok ⟨none, "", false⟩ := by
  refine ⟨?_, fun b => rfl, rfl, rfl, rfl⟩
  intro q hq
  unfold currencyFieldMountTSX useStateInitTSX
  rw [if_pos (by simp [jsTruthyOpt, jsTruthy, hq])]
  rfl

/-- C3 witness: mounting with initial value 1234.56 throws the reference
error. -/
theorem C3_currencyField_mount_tdz_witness :
    (1234.56 : ℚ) ≠ 0 ∧
    currencyFieldMountTSX (some (.num 1234.56)) =
      .error "ReferenceError: Cannot access formatCurrency before initialization" :=
  ⟨by norm_num, C3_currencyField_mount_tdz.1 1234.56 (by norm_num)⟩

/-- C4 counterexample: `Infinity` is a numeric value other than `null`/`NaN`,
yet the formatter renders it as the infinity symbol with zero fraction digits,
not a string with exactly two. -/
theorem C4_formatCurrency_infinity :
    formatCurrency (some (.inf false)) = "kr\u00A0∞" ∧
    fracDigitCountStr (formatCurrency (some (.inf false))) = 0 ∧
    fracDigitCountStr (formatCurrency (some (.inf false))) ≠ 2 := by
  exact ⟨by decide, by decide, by decide⟩

/-- C4 (amended): `format(null) = ""` and `format(NaN) = ""`; every FINITE
numeric value formats with exactly two fraction digits, while the two
infinities format as the infinity symbol with no fraction digits. -/
theorem C4_formatCurrency_spec :
    formatCurrency none = "" ∧
    formatCurrency (some .nan) = "" ∧
    (∀ q : ℚ, fracDigitCountStr (formatCurrency (some (.num q))) = 2) ∧
    (∀ b : Bool, fracDigitCountStr (formatCurrency (some (.inf b))) = 0) := by
  refine ⟨rfl, rfl, fun q => fracDigitCount_formatFiniteNOK q, fun b => ?_⟩
  cases b <;> decide

/-- C5 counterexample: `"1.234"` is accepted by the parser, but the round trip
returns `1.23` (the formatter rounds to two fraction digits), so
`parse(format(parse(s)))` differs from `parse(s)`. -/
theorem C5_roundtrip_not_identity :
    parseNumber "1.234" = JSNum.num (1.234 : ℚ) ∧
    parseNumber (formatCurrency (some (parseNumber "1.234"))) = JSNum.num (1.23 : ℚ) ∧
    parseNumber (formatCurrency (some (parseNumber "1.234"))) ≠ parseNumber "1.234" := by
  exact ⟨by decide, by decide, by decide⟩

/-- C5 (amended): for every string the parser maps to a non-negative finite
value `q`, the round trip yields `q` rounded to two fraction digits (half away
from zero) — the identity claimed holds only when `q` already has at most two
fraction digits.  (Negative values additionally lose their sign: the
formatter's U+2212 minus is not in the parser's kept character class.) -/
theorem C5_roundtrip_rounds_to_cents (s : String) (q : ℚ)
    (hs : parseNumber s = JSNum.num q) (hq : 0 ≤ q) :
    parseNumber (formatCurrency (some (parseNumber s))) =
      JSNum.num ((roundHalfAway (q * 100) : ℚ) / 100) := by
  rw [hs]
  exact parseNumber_format_nonneg q hq

/-- C5 witness: the round trip on `"12.5"` lands on 12.50 = 12.5. -/
theorem C5_roundtrip_rounds_to_cents_witness :
    parseNumber "12.5" = JSNum.num (12.5 : ℚ) ∧ (0 : ℚ) ≤ 12.5 ∧
    parseNumber (formatCurrency (some (parseNumber "12.5"))) =
      JSNum.num ((roundHalfAway ((12.5 : ℚ) * 100) : ℚ) / 100) :=
  ⟨by decide, by norm_num,
    C5_roundtrip_rounds_to_cents "12.5" 12.5 (by decide) (by norm_num)⟩

/-- C6 counterexample: the claim's invariant "while unfocused the display is
the formatted canonical value" fails at mount with canonical value 0: the
initializer takes the falsy branch and shows `''`, while the formatted value
is `"kr 0,00"`. -/
theorem C6_unfocused_display_not_formatted :
    currencyFieldMountTSX (some (.num 0)) = .ok ⟨some (.num 0), "", false⟩ ∧
    formatCurrency (some (.num 0)) = "kr\u00A00,00" ∧
    ("" : String) ≠ formatCurrency (some (.num 0)) := by
  exact ⟨rfl, by decide, by decide⟩

/-- C6 (amended): focus shows `(value ?? 0).toString()`, each keystroke stores
`parse(raw)` while the display keeps the raw text, and blur shows
`formatCurrency(value ?? 0)` — as claimed.  While unfocused, however, the
mount initializer and the external re-synchronisation show the formatted value
only for truthy canonical values and the empty string for falsy ones (absent,
0, `NaN`); the sync effect is a no-op while focused. -/
theorem C6_currency_display_machine :
    (∀ m : CurrencyMachine,
      (currencyStep m .focus).display = jsNumToString (m.canonical.getD (.num 0)) ∧
      (currencyStep m .focus).focused = true ∧
      (currencyStep m .focus).canonical = m.canonical) ∧
    (∀ m s, (currencyStep m (.input s)).canonical = some (parseNumber s) ∧
      (currencyStep m (.input s)).display = s) ∧
    (∀ m, (currencyStep m .blur).display =
        formatCurrency (some (m.canonical.getD (.num 0))) ∧
      (currencyStep m .blur).focused = false ∧
      (currencyStep m .blur).canonical = m.canonical) ∧
    (∀ c d, (currencyStep ⟨c, d, false⟩ .externalSync).display =
      (if jsTruthyOpt c then formatCurrency c else "")) ∧
    (∀ c d, currencyStep ⟨c, d, true⟩ .externalSync = ⟨c, d, true⟩) := by
  exact ⟨fun m => ⟨rfl, rfl, rfl⟩, fun m s => ⟨rfl, rfl⟩, fun m => ⟨rfl, rfl, rfl⟩,
    fun c d => rfl, fun c d => rfl⟩

/-- C7 counterexample: the two copies differ beyond the three claimed decision
points.  A change event with text `"5"` parses identically in both copies, yet
the displayed text differs: the form.tsx copy keeps the raw `"5"`, while the
part_001 copy re-renders the formatted `"kr 5,00"`. -/
theorem C7_currency_display_divergence :
    parseNumber "5" = parseCurrency "5" ∧
    (currencyStep ⟨some (.num 0), "", true⟩ (.input "5")).display = "5" ∧
    currencyDisplayP1 (some (parseCurrency "5")) = "kr\u00A05,00" ∧
    (currencyStep ⟨some (.num 0), "", true⟩ (.input "5")).display ≠
      currencyDisplayP1 (some (parseCurrency "5")) := by
  exact ⟨by decide, rfl, by decide, by decide⟩

/-- C7 (amended): the copies agree on BaseField, NumberField, SubmitButton and
the MapField drag handler, and differ in the MapField default zoom (4 vs 1),
the SelectField clear affordance (value-gated adjacent button vs unconditional
`None` item) and the currency parsing (comma handling, `NaN` vs 0) — but ALSO
in the whole CurrencyField display mechanism: stateful raw editing versus a
stateless always-formatted input. -/
theorem C7_copy_divergences :
    (∀ a b c l, submitDisabled a b c l = submitDisabledP1 a b c l ∧
      submitSpinner a b c l = submitSpinnerP1 a b c l) ∧
    (∀ v s, numberFieldOnChange v s = numberFieldOnChangeP1 v s) ∧
    (∀ es, baseFieldMessageContent es = baseFieldMessageContentP1 es) ∧
    (∀ st lng lat, onMarkerDrag st lng lat = onMarkerDragP1 st lng lat) ∧
    (mapFieldZoom none = 4 ∧ mapFieldZoomP1 none = 1) ∧
    (selectShowsClearControl false "" = false ∧ selectOffersNoneItemP1 false = true) ∧
    (parseNumber "1,5" = JSNum.num (1.5 : ℚ) ∧ parseCurrency "1,5" = JSNum.num 15) ∧
    (parseNumber "5" = parseCurrency "5" ∧
      (currencyStep ⟨some (.num 0), "", true⟩ (.input "5")).display ≠
        currencyDisplayP1 (some (parseCurrency "5"))) := by
  exact ⟨fun a b c l => ⟨rfl, rfl⟩, fun v s => rfl, fun es => rfl,
    fun st lng lat => rfl, ⟨rfl, rfl⟩, ⟨rfl, rfl⟩, ⟨by decide, by decide⟩,
    ⟨by decide, by decide⟩⟩

/-- C8: a drag event with `lngLat {lng, lat}` writes exactly
`{longitude: lng, latitude: lat}` to the field in one step and leaves the map
view untouched; the view is initialized once from the caller's zoom and
coordinates, and later field-value writes leave it unchanged as well. -/
theorem C8_mapField_drag_frame :
    (∀ s lng lat, (onMarkerDrag s lng lat).fieldValue = some ⟨lng, lat⟩ ∧
      (onMarkerDrag s lng lat).view = s.view) ∧
    (∀ s v, (mapFieldSetValue s v).view = s.view) ∧
    (∀ z c iv, (mapFieldMount z c iv).view =
      ⟨mapFieldZoom z, (c.getD DEFAULT_COORDINATES).longitude,
        (c.getD DEFAULT_COORDINATES).latitude⟩) := by
  exact ⟨fun s lng lat => ⟨rfl, rfl⟩, fun s v => rfl, fun z c iv => rfl⟩

/-- C9: `BaseField` renders no error-message content for an empty error list
and exactly the first error's message otherwise; as a pure function of the
binding's error list, it neither creates nor clears errors. -/
theorem C9_baseField_first_error :
    baseFieldMessageContent [] = none ∧
    (∀ e es, baseFieldMessageContent (e :: es) = some e.message) := by
  exact ⟨rfl, fun e es => by simp [baseFieldMessageContent]⟩

/-- C10: every change event on `NumberField` writes `Number(input)` to the
binding unconditionally (no validation of its own); a string outside the
`StringNumericLiteral` grammar coerces to `NaN`, a string inside it never
does. -/
theorem C10_numberField_coercion (v : JSNum) (s : String) :
    numberFieldOnChange v s = jsNumber s ∧
    (isNumericString s = false → jsNumber s = JSNum.nan) ∧
    (isNumericString s = true → jsNumber s ≠ JSNum.nan) := by
  refine ⟨rfl, ?_, ?_⟩
  · intro h
    show jsNumberL s.toList = _
    unfold jsNumberL
    unfold isNumericString at h
    rw [if_neg (fun hh => Bool.false_ne_true (h.symm.trans hh))]
  · intro h hnan
    have h2 := (jsNumberL_eq_nan_iff s.toList).mp hnan
    unfold isNumericString at h
    exact absurd (h.symm.trans h2) (by decide)

/-- C10 witness: `"12abc"` is non-numeric and coerces to `NaN`, which the
handler writes to the binding. -/
theorem C10_numberField_coercion_witness :
    isNumericString "12abc" = false ∧
    numberFieldOnChange (JSNum.num 0) "12abc" = jsNumber "12abc" ∧
    jsNumber "12abc" = JSNum.nan :=
  ⟨by decide, (C10_numberField_coercion (JSNum.num 0) "12abc").1,
    (C10_numberField_coercion (JSNum.num 0) "12abc").2.1 (by decide)⟩
